import Mathlib

/-!
Shallow embedding of the process-supervision core of `hugo-manager`
(`internal/hugo/manager.go`).  The Go `Manager` struct becomes a pure
state record; each method becomes a state-transforming function.
External effects (spawning the OS process, killing it) are modelled by
explicit environment parameters describing their outcome, and the
goroutines launched by `Start` are recorded as boolean fields of the
result so that claims about which background loops run can be stated.
Timestamps (`time.Now()`) are passed in as an abstract `Nat` parameter.
-/

namespace HugoMgr

/-- Lifecycle status of the supervised Hugo process (`Status` in manager.go). -/
inductive Status
  | stopped
  | starting
  | running
  | error
  deriving Repr, DecidableEq

/-- Hugo-related configuration (`config.HugoConfig` in config.go).
Go `int` is modelled as `Int`. -/
structure HugoConfig where
  port : Int
  autoStart : Bool
  additionalArgs : List String
  disableFastRender : Bool
  deriving Repr, DecidableEq

/-- One log line (`LogEntry` in manager.go); `time.Time` is abstracted to `Nat`. -/
structure LogEntry where
  time : Nat
  message : String
  type : String
  deriving Repr, DecidableEq

/-- A subscriber channel (`chan LogEntry` in Go): a bounded FIFO queue with
the capacity it was created with. -/
structure Channel where
  buf : List LogEntry
  cap : Nat
  deriving Repr, DecidableEq

/-- The `exec.Cmd` the manager builds: executable name, argument list, working
directory, and whether `cmd.Start()` has succeeded (in Go, `cmd.Process != nil`). -/
structure Cmd where
  name : String
  args : List String
  dir : String
  processStarted : Bool
  deriving Repr, DecidableEq

/-- The manager state (`Manager` in manager.go), minus the mutexes, which
guard a state that is explicit here. -/
structure Manager where
  projectDir : String
  config : HugoConfig
  cmd : Option Cmd
  status : Status
  statusMsg : String
  logs : List LogEntry
  subscribers : List Channel
  maxLogs : Nat
  deriving Repr, DecidableEq

/-- Constructor `NewManager`: status `stopped`, empty log buffer, capacity 1000. -/
def NewManager (projectDir : String) (cfg : HugoConfig) : Manager :=
  { projectDir := projectDir
    config := cfg
    cmd := none
    status := Status.stopped
    statusMsg := ""
    logs := []
    subscribers := []
    maxLogs := 1000 }

/-- Method `setStatus`: writes the status and message pair. -/
def setStatus (m : Manager) (status : Status) (msg : String) : Manager :=
  { m with status := status, statusMsg := msg }

/-- The ring-buffer step performed inside `addLog`: append then, if the length
exceeds `maxLogs`, keep only the last `maxLogs` entries
(`m.logs = m.logs[len(m.logs)-m.maxLogs:]`). -/
def appendBounded (maxLogs : Nat) (logs : List LogEntry) (e : LogEntry) : List LogEntry :=
  let l := logs ++ [e]
  if l.length > maxLogs then l.drop (l.length - maxLogs) else l

/-- The non-blocking send (`select` with a `default` branch) to one subscriber:
enqueue when the channel still has room, otherwise drop the entry. -/
def offer (entry : LogEntry) (ch : Channel) : Channel :=
  if ch.buf.length < ch.cap then { ch with buf := ch.buf ++ [entry] } else ch

/-- Method `addLog`: build the entry, append it to the bounded buffer, then
broadcast it best-effort to every registered subscriber. -/
def addLog (m : Manager) (now : Nat) (message logType : String) : Manager :=
  let entry : LogEntry := { time := now, message := message, type := logType }
  { m with
      logs := appendBounded m.maxLogs m.logs entry
      subscribers := m.subscribers.map (offer entry) }

/-- Model of `result := make([]LogEntry, n); copy(result, src)`: the first
`min n src.length` slots come from `src`, the rest stay at the zero value. -/
def goCopy (n : Nat) (src : List LogEntry) : List LogEntry :=
  src.take n ++ List.replicate (n - src.length) { time := 0, message := "", type := "" }

/-- Method `GetLogs`: clamp the limit, compute the start index, and return a
fresh copy of the final slice of the buffer. -/
def GetLogs (m : Manager) (limit : Int) : List LogEntry :=
  let n : Int := (m.logs.length : Int)
  let lim : Int := if limit ≤ 0 ∨ limit > n then n else limit
  let startIdx : Int := if n - lim < 0 then 0 else n - lim
  goCopy lim.toNat (m.logs.drop startIdx.toNat)

/-- Method `Subscribe`: create a channel of capacity 100 and register it. -/
def Subscribe (m : Manager) : Manager × Channel :=
  let ch : Channel := { buf := [], cap := 100 }
  ({ m with subscribers := m.subscribers ++ [ch] }, ch)

/-- Method `GetPort`. -/
def GetPort (m : Manager) : Int :=
  m.config.port

/-- Outcome of the external steps of `Start` (pipe creation and process spawn),
an input to the model: exactly one of the three fallible calls may fail
with a message, or all succeed. -/
inductive SpawnEnv
  | stdoutPipeErr (msg : String)
  | stderrPipeErr (msg : String)
  | startErr (msg : String)
  | ok
  deriving Repr, DecidableEq

/-- What a call to `Start` produced: the new state, the returned error, and
which of the side activities were actually launched. -/
structure StartResult where
  state : Manager
  err : Option String
  processSpawned : Bool
  stdoutLoop : Bool
  stderrLoop : Bool
  exitWaiter : Bool
  graceTimer : Bool
  deriving Repr, DecidableEq

/-- Method `Start`, translated line by line from manager.go. -/
def Start (m : Manager) (now : Nat) (env : SpawnEnv) : StartResult :=
  if m.status = Status.running ∨ m.status = Status.starting then
    { state := m, err := some "Hugo is already running", processSpawned := false
      stdoutLoop := false, stderrLoop := false, exitWaiter := false, graceTimer := false }
  else
    let m1 := { m with status := Status.starting, statusMsg := "Starting Hugo server..." }
    let m2 := addLog m1 now "Starting Hugo server..." "system"
    let args1 := ["server"]
    let args2 := args1 ++ ["--port", toString m2.config.port]
    let args3 := if m2.config.disableFastRender then args2 ++ ["--disableFastRender"] else args2
    let args4 := args3 ++ m2.config.additionalArgs
    let m3 := { m2 with
      cmd := some { name := "hugo", args := args4, dir := m2.projectDir, processStarted := false } }
    match env with
    | SpawnEnv.stdoutPipeErr e =>
      { state := setStatus m3 Status.error ("Failed to get stdout: " ++ e), err := some e
        processSpawned := false, stdoutLoop := false, stderrLoop := false
        exitWaiter := false, graceTimer := false }
    | SpawnEnv.stderrPipeErr e =>
      { state := setStatus m3 Status.error ("Failed to get stderr: " ++ e), err := some e
        processSpawned := false, stdoutLoop := false, stderrLoop := false
        exitWaiter := false, graceTimer := false }
    | SpawnEnv.startErr e =>
      { state := setStatus m3 Status.error ("Failed to start Hugo: " ++ e), err := some e
        processSpawned := false, stdoutLoop := false, stderrLoop := false
        exitWaiter := false, graceTimer := false }
    | SpawnEnv.ok =>
      let m4 := { m3 with
        cmd := some { name := "hugo", args := args4, dir := m2.projectDir, processStarted := true } }
      { state := m4, err := none, processSpawned := true
        stdoutLoop := true, stderrLoop := true, exitWaiter := true, graceTimer := true }

/-- Outcome of `cmd.Process.Kill()`, an input to the model of `Stop`. -/
inductive KillEnv
  | killErr (msg : String)
  | ok
  deriving Repr, DecidableEq

/-- What a call to `Stop` produced: the new state, the returned error, and
whether `Kill` was actually invoked. -/
structure StopResult where
  state : Manager
  err : Option String
  killAttempted : Bool
  deriving Repr, DecidableEq

/-- Method `Stop`, translated line by line from manager.go. -/
def Stop (m : Manager) (now : Nat) (env : KillEnv) : StopResult :=
  if m.status = Status.stopped then
    { state := m, err := some "Hugo is not running", killAttempted := false }
  else
    let m1 := addLog m now "Stopping Hugo server..." "system"
    match m1.cmd with
    | some c =>
      if c.processStarted then
        match env with
        | KillEnv.killErr e =>
          { state := addLog m1 now ("Error stopping Hugo: " ++ e) "system"
            err := some e, killAttempted := true }
        | KillEnv.ok =>
          { state := setStatus m1 Status.stopped "", err := none, killAttempted := true }
      else
        { state := setStatus m1 Status.stopped "", err := none, killAttempted := false }
    | none =>
      { state := setStatus m1 Status.stopped "", err := none, killAttempted := false }

/-- What a call to `Restart` produced, recording which phases actually ran
(`slept` models the fixed 500 ms delay between Stop and Start). -/
structure RestartResult where
  state : Manager
  err : Option String
  stopCalled : Bool
  slept : Bool
  startCalled : Bool
  deriving Repr, DecidableEq

/-- Method `Restart`, translated line by line from manager.go: log, then Stop
when not stopped (propagating a Stop failure immediately), then sleep, then Start. -/
def Restart (m : Manager) (now : Nat) (kenv : KillEnv) (senv : SpawnEnv) : RestartResult :=
  let m1 := addLog m now "Restarting Hugo server..." "system"
  if m1.status ≠ Status.stopped then
    let r := Stop m1 now kenv
    match r.err with
    | some e =>
      { state := r.state, err := some e, stopCalled := true, slept := false, startCalled := false }
    | none =>
      let s := Start r.state now senv
      { state := s.state, err := s.err, stopCalled := true, slept := true, startCalled := true }
  else
    let s := Start m1 now senv
    { state := s.state, err := s.err, stopCalled := false, slept := false, startCalled := true }

/-- Body of the grace-period goroutine spawned by `Start`: when it fires after
the two-second sleep it promotes `starting` to `running`, and otherwise
leaves the state alone. -/
def graceTimerTick (m : Manager) : Manager :=
  if m.status = Status.starting then
    { m with status := Status.running
             statusMsg := "Running on port " ++ toString m.config.port }
  else m

/-- Helper `containsAt` from manager.go: scan positions `0..len(s)-len(substr)`
for an occurrence of `substr`.  Go strings are modelled as `List Char`;
the `Int` guard mirrors the signed loop bound `len(s)-len(substr)`. -/
def containsAt (s substr : List Char) : Bool :=
  if (s.length : Int) - (substr.length : Int) < 0 then false
  else (List.range (s.length - substr.length + 1)).any fun i =>
    (s.drop i).take substr.length == substr

/-- Helper `contains` from manager.go, with its guard expression kept intact. -/
def contains (s substr : List Char) : Bool :=
  decide (substr.length ≤ s.length) &&
    (s == substr || (decide (0 < s.length) && containsAt s substr))

/-- Packing of the three `addLog` arguments, used to talk about sequences of appends. -/
def mkEntry (x : Nat × String × String) : LogEntry :=
  { time := x.1, message := x.2.1, type := x.2.2 }

/-- Run a whole sequence of `addLog` calls. -/
def appendAll (m : Manager) (xs : List (Nat × String × String)) : Manager :=
  xs.foldl (fun acc x => addLog acc x.1 x.2.1 x.2.2) m

/-- One bounded append never leaves more than `N` entries in the buffer. -/
theorem appendBounded_length_le (N : Nat) (logs : List LogEntry) (e : LogEntry) :
    (appendBounded N logs e).length ≤ N := by
  simp only [appendBounded]
  split
  · simp only [List.length_drop]
    omega
  · rename_i h
    omega

/-- One bounded append keeps exactly the last `N` entries of the appended list. -/
theorem appendBounded_eq_drop (N : Nat) (logs : List LogEntry) (e : LogEntry) :
    appendBounded N logs e = (logs ++ [e]).drop ((logs ++ [e]).length - N) := by
  simp only [appendBounded]
  split
  · rfl
  · rename_i h
    rw [Nat.sub_eq_zero_of_le (by omega), List.drop_zero]

/-- Folding bounded appends over a sequence keeps exactly the last `N` entries
of the total stream, provided the initial buffer already respects the bound. -/
theorem foldl_appendBounded (N : Nat) (es : List LogEntry) :
    ∀ logs : List LogEntry, logs.length ≤ N →
      es.foldl (appendBounded N) logs = (logs ++ es).drop ((logs ++ es).length - N) := by
  induction es with
  | nil =>
    intro logs h
    simp [Nat.sub_eq_zero_of_le h]
  | cons e es ih =>
    intro logs h
    rw [List.foldl_cons, ih _ (appendBounded_length_le N logs e), appendBounded_eq_drop]
    rw [← List.drop_append_of_le_length (Nat.sub_le _ _)]
    rw [List.drop_drop]
    have hre : (logs ++ [e]) ++ es = logs ++ e :: es := by simp
    rw [hre]
    congr 1
    simp only [List.length_drop, List.length_append, List.length_cons, List.length_nil]
    omega

/-- `appendAll` leaves the capacity untouched. -/
theorem appendAll_maxLogs (xs : List (Nat × String × String)) :
    ∀ m : Manager, (appendAll m xs).maxLogs = m.maxLogs := by
  induction xs with
  | nil => intro m; rfl
  | cons x xs ih =>
    intro m
    show (appendAll (addLog m x.1 x.2.1 x.2.2) xs).maxLogs = m.maxLogs
    rw [ih]
    rfl

/-- The log buffer after `appendAll` is the fold of bounded appends. -/
theorem appendAll_logs (xs : List (Nat × String × String)) :
    ∀ m : Manager,
      (appendAll m xs).logs = (xs.map mkEntry).foldl (appendBounded m.maxLogs) m.logs := by
  induction xs with
  | nil => intro m; rfl
  | cons x xs ih =>
    intro m
    show (appendAll (addLog m x.1 x.2.1 x.2.2) xs).logs = _
    rw [ih]
    rfl

/-- Copying a list into a fresh slot of exactly its length is the identity. -/
theorem goCopy_eq_of_length_eq (n : Nat) (src : List LogEntry) (h : src.length = n) :
    goCopy n src = src := by
  subst h
  simp [goCopy]

/-- Closed form for `GetLogs`: the last `limit` entries in the in-range case,
the whole buffer otherwise. -/
theorem GetLogs_eq (m : Manager) (limit : Int) :
    GetLogs m limit =
      if 0 < limit ∧ limit ≤ (m.logs.length : Int)
      then m.logs.drop (m.logs.length - limit.toNat)
      else m.logs := by
  by_cases hc : limit ≤ 0 ∨ limit > (m.logs.length : Int)
  · rw [if_neg (by omega)]
    simp only [GetLogs]
    rw [if_pos hc, if_neg (by omega)]
    rw [sub_self, Int.toNat_zero, List.drop_zero]
    exact goCopy_eq_of_length_eq _ _ (by simp)
  · push_neg at hc
    rw [if_pos (by omega)]
    simp only [GetLogs]
    rw [if_neg (by omega), if_neg (by omega)]
    have hlen : (m.logs.drop ((m.logs.length : Int) - limit).toNat).length = limit.toNat := by
      simp only [List.length_drop]
      omega
    rw [goCopy_eq_of_length_eq _ _ hlen]
    congr 1
    omega

/-- `GetLogs 0` returns the whole buffer. -/
theorem GetLogs_zero (m : Manager) : GetLogs m 0 = m.logs := by
  rw [GetLogs_eq]
  simp

/-- Sample configuration matching the repository defaults (config.go). -/
def cfgSample : HugoConfig :=
  { port := 1313, autoStart := true
    additionalArgs := ["--bind", "0.0.0.0"], disableFastRender := true }

/-- A freshly constructed manager. -/
def mgrStopped : Manager :=
  NewManager "/site" cfgSample

/-- A command whose process has been started. -/
def cmdLive : Cmd :=
  { name := "hugo", args := ["server"], dir := "/site", processStarted := true }

/-- A manager observing a live running process. -/
def mgrRunning : Manager :=
  { mgrStopped with
      status := Status.running, statusMsg := "Running on port 1313", cmd := some cmdLive }

/-- A manager in the transient `starting` state. -/
def mgrStarting : Manager :=
  { mgrStopped with status := Status.starting, cmd := some cmdLive }

/-- C1: while the status is `running` or `starting`, `Start` fails with the
"already running" error and changes nothing (no status, message, log or
subscriber mutation, no spawned process, no background loops); while the
status is `stopped`, `Stop` fails with the "not running" error and likewise
changes nothing. -/
theorem claim_C1_rejection (m : Manager) (now : Nat) (senv : SpawnEnv) (kenv : KillEnv) :
    ((m.status = Status.running ∨ m.status = Status.starting) →
      Start m now senv =
        { state := m, err := some "Hugo is already running", processSpawned := false
          stdoutLoop := false, stderrLoop := false, exitWaiter := false, graceTimer := false }) ∧
    (m.status = Status.stopped →
      Stop m now kenv =
        { state := m, err := some "Hugo is not running", killAttempted := false }) := by
  constructor
  · intro h
    unfold Start
    rw [if_pos h]
  · intro h
    unfold Stop
    rw [if_pos h]

/-- Witness for C1 at concrete states. -/
theorem claim_C1_witness :
    (Start mgrRunning 0 SpawnEnv.ok).state = mgrRunning ∧
    (Stop mgrStopped 0 KillEnv.ok).state = mgrStopped := by
  constructor
  · rw [(claim_C1_rejection mgrRunning 0 SpawnEnv.ok KillEnv.ok).1 (Or.inl rfl)]
  · rw [(claim_C1_rejection mgrStopped 0 SpawnEnv.ok KillEnv.ok).2 rfl]

/-- C2: over any sequence of appends to a freshly constructed manager the
buffer length never exceeds the construction-time capacity 1000, and once
more than 1000 entries have been appended, `GetLogs 0` returns exactly the
most recent 1000 entries in arrival order. -/
theorem claim_C2_ring_bound (pd : String) (cfg : HugoConfig)
    (xs : List (Nat × String × String)) :
    (appendAll (NewManager pd cfg) xs).logs.length ≤ 1000 ∧
    (1000 < xs.length →
      GetLogs (appendAll (NewManager pd cfg) xs) 0 = (xs.map mkEntry).drop (xs.length - 1000) ∧
      (GetLogs (appendAll (NewManager pd cfg) xs) 0).length = 1000) := by
  have hlogs : (appendAll (NewManager pd cfg) xs).logs
      = ((xs.map mkEntry)).drop ((xs.map mkEntry).length - 1000) := by
    rw [appendAll_logs]
    have h0 : (NewManager pd cfg).logs = [] := rfl
    have h1 : (NewManager pd cfg).maxLogs = 1000 := rfl
    rw [h0, h1, foldl_appendBounded 1000 _ [] (by simp)]
    simp
  constructor
  · rw [hlogs]
    simp only [List.length_drop, List.length_map]
    omega
  · intro hk
    rw [GetLogs_zero, hlogs]
    constructor
    · rw [List.length_map]
    · simp only [List.length_drop, List.length_map]
      omega

/-- Long input stream for the C2 witness: 1001 appends. -/
def xsLong : List (Nat × String × String) :=
  (List.range 1001).map (fun i => (i, "line", "stdout"))

/-- Witness for C2 on a concrete overlong stream. -/
theorem claim_C2_witness :
    GetLogs (appendAll (NewManager "/site" cfgSample) xsLong) 0
        = (xsLong.map mkEntry).drop (xsLong.length - 1000) ∧
      (GetLogs (appendAll (NewManager "/site" cfgSample) xsLong) 0).length = 1000 :=
  (claim_C2_ring_bound "/site" cfgSample xsLong).2 (by simp [xsLong])

/-- C4: when `cmd.Start()` fails, `Start` sets status `error` carrying the
underlying failure message, returns that failure, and launches none of the
three background loops (and no grace timer); the process is not spawned. -/
theorem claim_C4_spawn_failure (m : Manager) (now : Nat) (e : String)
    (h : ¬ (m.status = Status.running ∨ m.status = Status.starting)) :
    (Start m now (SpawnEnv.startErr e)).state.status = Status.error ∧
    (Start m now (SpawnEnv.startErr e)).state.statusMsg = "Failed to start Hugo: " ++ e ∧
    (Start m now (SpawnEnv.startErr e)).err = some e ∧
    (Start m now (SpawnEnv.startErr e)).stdoutLoop = false ∧
    (Start m now (SpawnEnv.startErr e)).stderrLoop = false ∧
    (Start m now (SpawnEnv.startErr e)).exitWaiter = false ∧
    (Start m now (SpawnEnv.startErr e)).graceTimer = false ∧
    (Start m now (SpawnEnv.startErr e)).processSpawned = false := by
  unfold Start
  rw [if_neg h]
  exact ⟨rfl, rfl, rfl, rfl, rfl, rfl, rfl, rfl⟩

/-- Witness for C4 at a concrete stopped manager. -/
theorem claim_C4_witness :
    (Start mgrStopped 0 (SpawnEnv.startErr "executable file not found")).state.status
        = Status.error ∧
      (Start mgrStopped 0 (SpawnEnv.startErr "executable file not found")).err
        = some "executable file not found" :=
  ⟨(claim_C4_spawn_failure mgrStopped 0 "executable file not found" (by decide)).1,
   (claim_C4_spawn_failure mgrStopped 0 "executable file not found" (by decide)).2.2.1⟩

/-- C5: with a live process and a non-stopped status, `Stop` appends the
system log entry and issues the kill; on kill success it sets status
`stopped` with an empty message and returns no error, while on kill failure
it returns the kill error and the status and message keep their previous
values. -/
theorem claim_C5_stop (m : Manager) (now : Nat) (c : Cmd) (e : String)
    (h1 : m.status ≠ Status.stopped) (h2 : m.cmd = some c) (h3 : c.processStarted = true) :
    (Stop m now KillEnv.ok).err = none ∧
    (Stop m now KillEnv.ok).killAttempted = true ∧
    (Stop m now KillEnv.ok).state.status = Status.stopped ∧
    (Stop m now KillEnv.ok).state.statusMsg = "" ∧
    (Stop m now KillEnv.ok).state.logs
      = appendBounded m.maxLogs m.logs
          { time := now, message := "Stopping Hugo server...", type := "system" } ∧
    (Stop m now (KillEnv.killErr e)).err = some e ∧
    (Stop m now (KillEnv.killErr e)).killAttempted = true ∧
    (Stop m now (KillEnv.killErr e)).state.status = m.status ∧
    (Stop m now (KillEnv.killErr e)).state.statusMsg = m.statusMsg := by
  simp [Stop, addLog, setStatus, h1, h2, h3]

/-- Witness for C5 at a concrete running manager with a live process. -/
theorem claim_C5_witness :
    (Stop mgrRunning 0 KillEnv.ok).state.status = Status.stopped ∧
      (Stop mgrRunning 0 (KillEnv.killErr "no such process")).err = some "no such process" :=
  ⟨(claim_C5_stop mgrRunning 0 cmdLive "no such process" (by decide) rfl rfl).2.2.1,
   (claim_C5_stop mgrRunning 0 cmdLive "no such process" (by decide) rfl rfl).2.2.2.2.2.1⟩

/-- C9: the grace-timer body promotes the status to `running` with the
port-naming message only when the status is still `starting` when it fires,
touching nothing else; in every other status it changes nothing at all. -/
theorem claim_C9_grace_timer (m : Manager) :
    (m.status = Status.starting →
      (graceTimerTick m).status = Status.running ∧
      (graceTimerTick m).statusMsg = "Running on port " ++ toString m.config.port ∧
      (graceTimerTick m).logs = m.logs ∧
      (graceTimerTick m).subscribers = m.subscribers ∧
      (graceTimerTick m).cmd = m.cmd) ∧
    (m.status ≠ Status.starting → graceTimerTick m = m) := by
  constructor
  · intro h
    unfold graceTimerTick
    rw [if_pos h]
    exact ⟨rfl, rfl, rfl, rfl, rfl⟩
  · intro h
    unfold graceTimerTick
    rw [if_neg h]

/-- Witness for C9: promotion at a starting state, identity at a running one. -/
theorem claim_C9_witness :
    (graceTimerTick mgrStarting).status = Status.running ∧
      (graceTimerTick mgrStarting).statusMsg = "Running on port 1313" ∧
      graceTimerTick mgrRunning = mgrRunning := by
  refine ⟨(claim_C9_grace_timer mgrStarting).1 rfl |>.1, ?_, ?_⟩
  · rw [(claim_C9_grace_timer mgrStarting).1 rfl |>.2.1]
    rfl
  · exact (claim_C9_grace_timer mgrRunning).2 (by decide)

/-- C6: `addLog` appends the entry to the buffer (it becomes the newest
entry), keeps the subscriber set the same size, enqueues the entry at the
tail of every subscriber channel that still has room, leaves full channels
untouched (the entry is dropped for them, not retried), and `Subscribe`
fixes each channel capacity at 100. -/
theorem claim_C6_broadcast (m : Manager) (now : Nat) (msg t : String) (i : Nat)
    (hmax : 0 < m.maxLogs) (hi : i < m.subscribers.length) :
    (addLog m now msg t).logs.getLast? = some { time := now, message := msg, type := t } ∧
    (addLog m now msg t).subscribers.length = m.subscribers.length ∧
    ((m.subscribers.get ⟨i, hi⟩).buf.length < (m.subscribers.get ⟨i, hi⟩).cap →
      ∀ hj : i < (addLog m now msg t).subscribers.length,
        (addLog m now msg t).subscribers.get ⟨i, hj⟩ =
          { m.subscribers.get ⟨i, hi⟩ with
              buf := (m.subscribers.get ⟨i, hi⟩).buf
                       ++ [{ time := now, message := msg, type := t }] }) ∧
    (¬ (m.subscribers.get ⟨i, hi⟩).buf.length < (m.subscribers.get ⟨i, hi⟩).cap →
      ∀ hj : i < (addLog m now msg t).subscribers.length,
        (addLog m now msg t).subscribers.get ⟨i, hj⟩ = m.subscribers.get ⟨i, hi⟩) ∧
    (Subscribe m).2.cap = 100 ∧ (Subscribe m).2.buf = [] := by
  have hget : ∀ hj : i < (addLog m now msg t).subscribers.length,
      (addLog m now msg t).subscribers.get ⟨i, hj⟩
        = offer { time := now, message := msg, type := t } (m.subscribers.get ⟨i, hi⟩) := by
    intro hj
    simp [addLog]
  refine ⟨?_, by simp [addLog], ?_, ?_, rfl, rfl⟩
  · simp only [addLog, appendBounded]
    split
    · rename_i hgt
      rw [List.drop_append_of_le_length (by
        simp only [List.length_append, List.length_cons, List.length_nil] at hgt ⊢
        omega)]
      exact List.getLast?_concat _
    · exact List.getLast?_concat _
  · intro hlt hj
    rw [hget hj]
    simp only [offer]
    rw [if_pos hlt]
  · intro hge hj
    rw [hget hj]
    simp only [offer]
    rw [if_neg hge]

/-- Witness for C6: one channel with room, one full channel. -/
def mgrTwoSubs : Manager :=
  { mgrRunning with
      subscribers := [ { buf := [], cap := 100 },
                       { buf := List.replicate 100 { time := 0, message := "x", type := "stdout" }
                         cap := 100 } ] }

/-- Witness for C6 at the non-full subscriber of a concrete manager. -/
theorem claim_C6_witness :
    (addLog mgrTwoSubs 7 "hello" "stdout").subscribers.get ⟨0, by decide⟩ =
      { buf := [{ time := 7, message := "hello", type := "stdout" }], cap := 100 } := by
  have h := (claim_C6_broadcast mgrTwoSubs 7 "hello" "stdout" 0 (by decide)
    (by decide)).2.2.1 (by decide) (by simp [addLog, mgrTwoSubs])
  simpa using h

/-- C7: `GetLogs limit` returns the most recent `limit` entries, oldest
first, when `0 < limit` does not exceed the buffer size, and the whole
buffer otherwise; the result is a fresh copy (the `make`/`copy` step is
modelled by `goCopy`), so it is a pure function of the pre-call buffer and
later appends cannot alter a slice already returned. -/
theorem claim_C7_getlogs (m : Manager) (limit : Int) :
    (0 < limit → limit ≤ (m.logs.length : Int) →
      GetLogs m limit = m.logs.drop (m.logs.length - limit.toNat) ∧
      (GetLogs m limit).length = limit.toNat) ∧
    (limit ≤ 0 ∨ (m.logs.length : Int) < limit → GetLogs m limit = m.logs) := by
  constructor
  · intro h0 hle
    have heq : GetLogs m limit = m.logs.drop (m.logs.length - limit.toNat) := by
      rw [GetLogs_eq, if_pos ⟨h0, hle⟩]
    refine ⟨heq, ?_⟩
    rw [heq]
    simp only [List.length_drop]
    omega
  · intro h
    rw [GetLogs_eq, if_neg]
    rintro ⟨h1, h2⟩
    rcases h with h | h <;> omega

/-- Concrete manager with three buffered entries, for the C7 witness. -/
def mgrWithLogs : Manager :=
  { mgrStopped with
      logs := [ { time := 1, message := "a", type := "stdout" },
                { time := 2, message := "b", type := "stdout" },
                { time := 3, message := "c", type := "stderr" } ] }

/-- Witness for C7: an in-range limit and an oversized limit. -/
theorem claim_C7_witness :
    GetLogs mgrWithLogs 2 = mgrWithLogs.logs.drop (mgrWithLogs.logs.length - (2 : Int).toNat) ∧
      GetLogs mgrWithLogs 5 = mgrWithLogs.logs :=
  ⟨((claim_C7_getlogs mgrWithLogs 2).1 (by decide) (by decide)).1,
   (claim_C7_getlogs mgrWithLogs 5).2 (Or.inr (by decide))⟩

/-- C8: whenever `Start` gets past its precondition it records a command
whose executable is the fixed name, whose argument list is exactly the
`server` subcommand, then `--port` with the configured port, then the
fast-render switch exactly when configured, then the additional arguments
verbatim, and whose working directory is the managed project root. -/
theorem claim_C8_command (m : Manager) (now : Nat) (env : SpawnEnv)
    (h : ¬ (m.status = Status.running ∨ m.status = Status.starting)) :
    ∃ c : Cmd, (Start m now env).state.cmd = some c ∧
      c.name = "hugo" ∧ c.dir = m.projectDir ∧
      c.args = ["server", "--port", toString m.config.port]
                 ++ (if m.config.disableFastRender then ["--disableFastRender"] else [])
                 ++ m.config.additionalArgs := by
  unfold Start
  rw [if_neg h]
  cases env <;>
    refine ⟨_, rfl, rfl, rfl, ?_⟩ <;>
    cases hf : m.config.disableFastRender <;>
    simp [addLog, hf]

/-- Witness for C8 at a concrete stopped manager (fast render disabled). -/
theorem claim_C8_witness :
    ∃ c : Cmd, (Start mgrStopped 0 SpawnEnv.ok).state.cmd = some c ∧
      c.name = "hugo" ∧ c.dir = mgrStopped.projectDir ∧
      c.args = ["server", "--port", toString mgrStopped.config.port]
                 ++ (if mgrStopped.config.disableFastRender then ["--disableFastRender"] else [])
                 ++ mgrStopped.config.additionalArgs :=
  claim_C8_command mgrStopped 0 SpawnEnv.ok (by decide)

/-- C3 counterexample: from a running state whose kill fails, `Restart`
returns the Stop error immediately: contrary to the claim, it neither waits
the fixed delay nor calls `Start` after the failed Stop. -/
theorem claim_C3_counterexample :
    (Restart mgrRunning 0 (KillEnv.killErr "operation not permitted") SpawnEnv.ok).startCalled
        = false ∧
      (Restart mgrRunning 0 (KillEnv.killErr "operation not permitted") SpawnEnv.ok).slept
        = false ∧
      (Restart mgrRunning 0 (KillEnv.killErr "operation not permitted") SpawnEnv.ok).err
        = some "operation not permitted" ∧
      mgrRunning.status ≠ Status.stopped := by
  refine ⟨rfl, rfl, rfl, by decide⟩

/-- C3 amended: when the status is already `stopped`, `Restart` proceeds
directly to `Start`; otherwise it calls `Stop` first, and then either
returns the Stop failure immediately (no delay, no `Start`), or, when Stop
succeeded, waits the fixed delay and calls `Start`, surfacing its result. -/
theorem claim_C3_amended (m : Manager) (now : Nat) (kenv : KillEnv) (senv : SpawnEnv) :
    (m.status = Status.stopped →
      Restart m now kenv senv =
        { state := (Start (addLog m now "Restarting Hugo server..." "system") now senv).state
          err := (Start (addLog m now "Restarting Hugo server..." "system") now senv).err
          stopCalled := false, slept := false, startCalled := true }) ∧
    (m.status ≠ Status.stopped →
      ((Stop (addLog m now "Restarting Hugo server..." "system") now kenv).err = none →
        Restart m now kenv senv =
          { state := (Start (Stop (addLog m now "Restarting Hugo server..." "system") now kenv).state
                        now senv).state
            err := (Start (Stop (addLog m now "Restarting Hugo server..." "system") now kenv).state
                        now senv).err
            stopCalled := true, slept := true, startCalled := true }) ∧
      (∀ e, (Stop (addLog m now "Restarting Hugo server..." "system") now kenv).err = some e →
        Restart m now kenv senv =
          { state := (Stop (addLog m now "Restarting Hugo server..." "system") now kenv).state
            err := some e, stopCalled := true, slept := false, startCalled := false })) := by
  constructor
  · intro h
    have hs : ¬ ((addLog m now "Restarting Hugo server..." "system").status ≠ Status.stopped) :=
      not_not_intro h
    simp only [Restart]
    rw [if_neg hs]
  · intro h
    have hs : (addLog m now "Restarting Hugo server..." "system").status ≠ Status.stopped := h
    constructor
    · intro herr
      simp only [Restart]
      rw [if_pos hs, herr]
    · intro e herr
      simp only [Restart]
      rw [if_pos hs, herr]

/-- Witness for the amended C3 in the already-stopped branch. -/
theorem claim_C3_witness :
    Restart mgrStopped 0 KillEnv.ok SpawnEnv.ok =
      { state := (Start (addLog mgrStopped 0 "Restarting Hugo server..." "system") 0
                    SpawnEnv.ok).state
        err := (Start (addLog mgrStopped 0 "Restarting Hugo server..." "system") 0
                    SpawnEnv.ok).err
        stopCalled := false, slept := false, startCalled := true } :=
  (claim_C3_amended mgrStopped 0 KillEnv.ok SpawnEnv.ok).1 rfl

/-- C10: the convoluted guard in `contains` is extensionally the standard
contiguous-substring predicate (with the empty string contained in every
string). -/
theorem claim_C10_contains (s substr : List Char) :
    contains s substr = true ↔ substr.IsInfix s := by
  constructor
  · intro h
    simp only [contains, Bool.and_eq_true, Bool.or_eq_true, decide_eq_true_eq,
      beq_iff_eq] at h
    obtain ⟨hlen, h⟩ := h
    rcases h with h | ⟨hpos, hat⟩
    · exact h ▸ List.infix_refl s
    · rw [containsAt, if_neg (by omega)] at hat
      simp only [List.any_eq_true, List.mem_range, beq_iff_eq] at hat
      obtain ⟨i, hi, heq⟩ := hat
      refine ⟨s.take i, (s.drop i).drop substr.length, ?_⟩
      have hkey : s.take i ++ (s.drop i).take substr.length ++ (s.drop i).drop substr.length
          = s := by
        rw [List.append_assoc, List.take_append_drop, List.take_append_drop]
      rw [heq] at hkey
      exact hkey
  · rintro ⟨t, u, rfl⟩
    simp only [contains, Bool.and_eq_true, Bool.or_eq_true, decide_eq_true_eq,
      beq_iff_eq]
    refine ⟨by simp only [List.length_append]; omega, ?_⟩
    by_cases hs : t ++ substr ++ u = substr
    · exact Or.inl hs
    · refine Or.inr ⟨?_, ?_⟩
      · by_contra hcon
        push_neg at hcon
        have h0 : t ++ substr ++ u = [] :=
          List.eq_nil_of_length_eq_zero (Nat.le_zero.mp hcon)
        have hsub : substr = [] := by
          have hl := congrArg List.length h0
          simp only [List.length_append, List.length_nil] at hl
          exact List.eq_nil_of_length_eq_zero (by omega)
        exact hs (by rw [h0, hsub])
      · rw [containsAt, if_neg (by simp; omega)]
        simp only [List.any_eq_true, List.mem_range, beq_iff_eq]
        refine ⟨t.length, by simp; omega, ?_⟩
        rw [List.append_assoc, List.drop_left, List.take_left]

end HugoMgr
